import Mathlib

/-!
Verification of the schema-discovery and sync logic of `tap_bing_ads`.

The Python sources (`tap_bing_ads/__init__.py` and
`tap_bing_ads/fetch_ad_accounts.py`) are shallowly embedded below:

* Python values decoded from SOAP/XML responses (dicts, lists, strings,
  ints, booleans, `None`) are modelled by the inductive type `Json`;
  dicts are association lists in insertion order, matching Python 3.7+
  dict semantics.
* Fallible Python code (subscripting that may raise `KeyError` /
  `TypeError` / `AttributeError`, regex matches that may be `None`) is
  modelled with `Option`: `none` is an uncaught exception.
* The in-place mutation performed by `get_type_map` / `fill_in_nested_types`
  (pass 2 rebinds dict entries to *shared references* of other schema
  dicts which are themselves mutated by the same pass) is modelled with an
  explicit heap of schema cells and addresses; `readCell` flattens the
  final object graph the way `json.dump` would observe it.
-/

set_option autoImplicit false

namespace TapBingAds

/-- Python/JSON values as decoded from XML responses or built by the
discovery code.  Dicts are ordered association lists. -/
inductive Json where
  | null
  | bool (b : Bool)
  | int (n : Int)
  | str (s : String)
  | arr (xs : List Json)
  | obj (fields : List (String × Json))
deriving Repr

/-- Lookup in an ordered association list (Python `d[k]` / `d.get(k)` on
the underlying dict, first-match). -/
def lookupAL {α : Type} (l : List (String × α)) (k : String) : Option α :=
  (l.find? (fun p => p.1 == k)).map (fun p => p.2)

/-- Insert-or-update in an ordered association list: Python dict
assignment `d[k] = v` keeps the position of an existing key and appends a
new key at the end. -/
def insertAL {α : Type} (l : List (String × α)) (k : String) (v : α) :
    List (String × α) :=
  if l.any (fun p => p.1 == k) then
    l.map (fun p => if p.1 == k then (k, v) else p)
  else
    l ++ [(k, v)]

/-- `charsPrefix n h` holds when `n` is a prefix of `h` (over characters). -/
def charsPrefix : List Char → List Char → Bool
  | [], _ => true
  | _ :: _, [] => false
  | a :: as, b :: bs => a == b && charsPrefix as bs

/-- `charsContains n h` holds when `n` occurs contiguously in `h`. -/
def charsContains (n : List Char) : List Char → Bool
  | [] => charsPrefix n []
  | c :: cs => charsPrefix n (c :: cs) || charsContains n cs

/-- Python's substring test `needle in hay` on strings. -/
def containsSubstr (needle hay : String) : Bool :=
  charsContains needle.toList hay.toList

/-- `xml_to_json_type` from the source: maps an XML primitive type name
to a JSON schema type name, defaulting to `string`. -/
def xml_to_json_type (xml_type : String) : String :=
  if xml_type == "boolean" then "boolean"
  else if xml_type == "decimal" || xml_type == "float" || xml_type == "double" then "number"
  else if xml_type == "long" then "integer"
  else if xml_type == "dateTime" || xml_type == "date" then "string"
  else "string"

/-- The attributes of a suds schema element that the source reads:
`element.name`, `element.nillable`, `element.root.name`,
`element.type` (a `(local name, namespace)` pair or `None`),
`element.ref` (first component, or `None`), and the names of
`element.rawchildren[0].rawchildren` (the enumeration literals of an
inline simple type). -/
structure Element where
  name : String
  nillable : Bool
  rootName : String
  typ : Option (String × String)
  ref : Option String
  enumNames : List String
deriving Repr

/-- The XML Schema built-in namespace tested by the source. -/
def xmlSchemaNs : String := "http://www.w3.org/2001/XMLSchema"

/-- `get_json_schema` from the source.  `none` models the uncaught
`TypeError` raised by `element.type[0]` when `element.type` is `None`.
The empty-enum case omits the `enum` key because Python's `if enum:`
is false for an empty list. -/
def get_json_schema (element : Element) : Option Json :=
  let types0 : List String := if element.nillable then ["null"] else []
  if element.rootName == "simpleType" then
    let enum := element.enumNames
    let types := types0 ++ ["string"]
    some (Json.obj
      ([("type", Json.arr (types.map Json.str))] ++
       (if enum.isEmpty then [] else [("enum", Json.arr (enum.map Json.str))])))
  else
    match element.typ with
    | none => none
    | some (xmlType, _) =>
      let types := types0 ++ [xml_to_json_type xmlType]
      let fmt : List (String × Json) :=
        if xmlType == "dateTime" || xmlType == "date" then
          [("format", Json.str "date-time")]
        else []
      some (Json.obj ([("type", Json.arr (types.map Json.str))] ++ fmt))

/-- ASCII lowercase letter, the `[a-z]` character class. -/
def isLowerAlpha (c : Char) : Bool := 'a' ≤ c && c ≤ 'z'

/-- `re.match(r'ArrayOf([a-z]+)', s)`: anchored at the start, the group
is the maximal run of lowercase letters after the `ArrayOf` prefix;
`none` when the pattern does not match. -/
def matchArrayOf (s : String) : Option String :=
  if charsPrefix "ArrayOf".toList s.toList then
    let run := (s.toList.drop 7).takeWhile isLowerAlpha
    if run.isEmpty then none else some (String.mk run)
  else none

/-- `get_array_type` from the source: `none` models the `AttributeError`
raised on `None.groups()` when the regex does not match. -/
def get_array_type (array_type : String) : Option Json :=
  (matchArrayOf array_type).map fun xml_type =>
    Json.obj [("type", Json.str "array"),
              ("items", Json.obj [("type", Json.str (xml_to_json_type xml_type))])]

/-- The body of the per-element loop of `wsdl_type_to_schema`: the value
assigned to `properties[element.name]`.  `none` models the uncaught
`TypeError` on `element.type[1]` when `element.type` is `None` and
`element.ref` is falsy. -/
def propOf (element : Element) : Option Json :=
  if element.rootName == "enumeration" then
    get_json_schema element
  else if element.typ.isNone && element.ref.isSome then
    element.ref.map Json.str
  else
    match element.typ with
    | none => none
    | some (tname, ns) =>
      if ns != xmlSchemaNs then
        if containsSubstr "ArrayOfstring" tname then get_array_type tname
        else some (Json.str tname)
      else get_json_schema element

/-- The `properties` dict built by the loop of `wsdl_type_to_schema`
(dict assignment, so a repeated element name overwrites in place). -/
def wsdl_props (children : List Element) : Option (List (String × Json)) :=
  children.foldlM (fun acc e => (propOf e).map fun j => insertAL acc e.name j) []

/-- The attributes of a suds WSDL type that the source reads: its map
key `_type.name`, its namespace `_type.qname[1]`, its own element
attributes (for the top-level `simpleType` case), and the child elements
`wsdl_type.rawchildren[0].rawchildren`. -/
structure WsdlType where
  name : String
  qnameNs : String
  asElement : Element
  children : List Element
deriving Repr

/-- `wsdl_type_to_schema` from the source, as the value observed before
any reference resolution. -/
def wsdl_type_to_schema (t : WsdlType) : Option Json :=
  if t.asElement.rootName == "simpleType" then
    get_json_schema t.asElement
  else
    (wsdl_props t.children).map fun props =>
      Json.obj [("type", Json.arr [Json.str "object"]),
                ("additionalProperties", Json.bool false),
                ("properties", Json.obj props)]

/-! ### Heap model of `get_type_map`

`get_type_map` stores one mutable dict per mapped type and pass 2
(`fill_in_nested_types`) rebinds placeholder properties to *references*
to those dicts while also mutating the dicts themselves in place.  A
property value is therefore either an inline JSON fragment or a
reference to another schema cell. -/

/-- A property value held in a schema dict: an inline fragment (scalar
schema, array fragment, or a placeholder string) or a reference to the
schema cell of another mapped type. -/
inductive PVal where
  | inl (j : Json)
  | ref (a : Nat)
deriving Repr

/-- One schema dict produced by `wsdl_type_to_schema`: either a
simple-type fragment (no `properties` key, never mutated) or an object
schema whose `properties` entries may be rebound by pass 2. -/
inductive Cell where
  | simpleCell (j : Json)
  | objCell (props : List (String × PVal))
deriving Repr

/-- `wsdl_type_to_schema` as the allocation of a fresh schema dict. -/
def wsdl_type_to_cell (t : WsdlType) : Option Cell :=
  if t.asElement.rootName == "simpleType" then
    (get_json_schema t.asElement).map Cell.simpleCell
  else
    (wsdl_props t.children).map fun props =>
      Cell.objCell (props.map fun p => (p.1, PVal.inl p.2))

/-- The state of `get_type_map`: the store of allocated schema dicts and
the name → address map `type_map`. -/
structure TMState where
  heap : List Cell
  tmap : List (String × Nat)
deriving Repr

/-- The namespace filter of `get_type_map`'s first loop. -/
def type_namespace_included (qname : String) : Bool :=
  containsSubstr "https://bingads.microsoft.com" qname ||
  containsSubstr "http://schemas.datacontract.org" qname

/-- One iteration of `get_type_map`'s first loop: skip foreign
namespaces, otherwise allocate the type's schema dict and bind its name
(re-binding an existing name keeps its position, like a Python dict). -/
def pass1Step (st : TMState) (t : WsdlType) : Option TMState :=
  if type_namespace_included t.qnameNs then
    (wsdl_type_to_cell t).map fun cell =>
      ⟨st.heap ++ [cell], insertAL st.tmap t.name st.heap.length⟩
  else some st

/-- The first loop of `get_type_map` (pass 1). -/
def build_pass1 (types : List WsdlType) : Option TMState :=
  types.foldlM pass1Step ⟨[], []⟩

/-- The body of `fill_in_nested_types`' loop for one property: a string
descriptor found in `type_map` is rebound to a reference to that entry's
schema dict; everything else is left untouched. -/
def fill_prop (tmap : List (String × Nat)) (p : String × PVal) : String × PVal :=
  match p with
  | (k, PVal.inl (Json.str s)) =>
    match lookupAL tmap s with
    | some a => (k, PVal.ref a)
    | none => (k, PVal.inl (Json.str s))
  | other => other

/-- `fill_in_nested_types` from the source, acting on the `properties`
dict of one schema cell. -/
def fill_in_nested_types (tmap : List (String × Nat)) (props : List (String × PVal)) :
    List (String × PVal) :=
  props.map (fill_prop tmap)

/-- One iteration of `get_type_map`'s second loop: schemas with a
`properties` key are mutated in place. -/
def pass2Step (tmap : List (String × Nat)) (heap : List Cell) (entry : String × Nat) :
    List Cell :=
  match heap[entry.2]? with
  | some (Cell.objCell props) =>
      heap.set entry.2 (Cell.objCell (fill_in_nested_types tmap props))
  | _ => heap

/-- The second loop of `get_type_map` (pass 2): every mapped schema is
processed once, in map order; the map itself is unchanged. -/
def build_pass2 (st : TMState) : TMState :=
  ⟨st.tmap.foldl (pass2Step st.tmap) st.heap, st.tmap⟩

/-- `get_type_map` from the source: pass 1 then pass 2.  `none` models
an exception escaping the first loop. -/
def get_type_map (types : List WsdlType) : Option TMState :=
  (build_pass1 types).map build_pass2

/-- Observable value of a schema cell, following references the way
`json.dump` would.  `fuel` bounds the depth; it is irrelevant as long as
it exceeds the reference depth (the modelled graphs are acyclic). -/
def readCell (heap : List Cell) : Nat → Nat → Json
  | 0, _ => Json.null
  | fuel + 1, a =>
    match heap[a]? with
    | some (Cell.simpleCell j) => j
    | some (Cell.objCell props) =>
        Json.obj [("type", Json.arr [Json.str "object"]),
                  ("additionalProperties", Json.bool false),
                  ("properties", Json.obj (props.map fun p =>
                    (p.1, match p.2 with
                          | PVal.inl j => j
                          | PVal.ref b => readCell heap fuel b)))]
    | none => Json.null

/-- Observable value of the type map at a given name. -/
def readEntry (st : TMState) (fuel : Nat) (name : String) : Option Json :=
  (lookupAL st.tmap name).map (readCell st.heap fuel)

/-- Navigate a chain of object keys inside a `Json` value. -/
def getPath : Json → List String → Option Json
  | j, [] => some j
  | Json.obj fs, k :: ks =>
    match lookupAL fs k with
    | some v => getPath v ks
    | none => none
  | _, _ :: _ => none

/-! ### Sync model

The sync functions call the SOAP client and convert each response with
`sobject_to_dict`; the client together with that conversion is modelled
as a family of functions from request key to decoded response.  Emitted
records (`singer.write_record(stream, record)`) are collected in order
in a list. -/

/-- Python `for x in v`: lists iterate their elements, dicts their keys,
strings their characters; anything else raises `TypeError` (`none`). -/
def pyIter : Json → Option (List Json)
  | Json.arr xs => some xs
  | Json.obj fs => some (fs.map fun p => Json.str p.1)
  | Json.str s => some (s.toList.map fun c => Json.str c.toString)
  | _ => none

/-- Python `v[k]` for a string key: `KeyError` on a dict without the key
and `TypeError` on a non-dict are both `none`. -/
def jSubscript (j : Json) (k : String) : Option Json :=
  match j with
  | Json.obj fs => lookupAL fs k
  | _ => none

/-- The decoded responses of the SOAP operations used by the sync: each
maps the identifying argument to the `sobject_to_dict`-converted
response dict. -/
structure SyncClient where
  getAccount : Json → Json
  getCampaignsByAccountId : Json → Json
  getAdGroupsByCampaignId : Json → Json
  getAdsByAdGroupId : Json → Json

/-- A record stream: `(stream name, record)` in emission order. -/
abbrev Records := List (String × Json)

/-- `sync_account_stream` from the source: one `accounts` record. -/
def sync_account_stream (client : SyncClient) (account_id : Json) : Records :=
  [("accounts", client.getAccount account_id)]

/-- `sync_campaigns` from the source: emits a `campaigns` record per
campaign when selected, and returns the campaign ids when the response
has a `Campaign` key (`none` there models the Python `None` return; the
lazy `map` over ids is taken eagerly, which only moves the point where a
missing `Id` key would raise). -/
def sync_campaigns (client : SyncClient) (account_id : Json)
    (selected_streams : List String) : Option (Records × Option (List Json)) :=
  match client.getCampaignsByAccountId account_id with
  | Json.obj fs =>
    match lookupAL fs "Campaign" with
    | some campaignsJ => do
        let campaigns ← pyIter campaignsJ
        let recs : Records :=
          if selected_streams.contains "campaigns" then
            campaigns.map (fun c => ("campaigns", c))
          else []
        let ids ← campaigns.mapM (fun c => jSubscript c "Id")
        pure (recs, some ids)
    | none => some ([], none)
  | _ => none

/-- `sync_ad_groups` from the source: per campaign id, emits the
`ad_groups` records when selected and appends the *list* of that
campaign's ad-group ids (the source accumulates a list of lists). -/
def sync_ad_groups (client : SyncClient) (campaign_ids : List Json)
    (selected_streams : List String) : Option (Records × List Json) :=
  campaign_ids.foldlM
    (fun (acc : Records × List Json) campaign_id =>
      match client.getAdGroupsByCampaignId campaign_id with
      | Json.obj fs =>
        match lookupAL fs "AdGroup" with
        | some adGroupsJ => do
            let ad_groups ← pyIter adGroupsJ
            let recs : Records :=
              if selected_streams.contains "ad_groups" then
                ad_groups.map (fun g => ("ad_groups", g))
              else []
            let ids ← ad_groups.mapM (fun g => jSubscript g "Id")
            pure (acc.1 ++ recs, acc.2 ++ [Json.arr ids])
        | none => some acc
      | _ => none)
    ([], [])

/-- `sync_ads` from the source: each element of `ad_group_ids` (a list
of ids, see `sync_ad_groups`) is passed as the `AdGroupId` argument. -/
def sync_ads (client : SyncClient) (ad_group_ids : List Json) : Option Records :=
  ad_group_ids.foldlM
    (fun (acc : Records) ad_group_id =>
      match client.getAdsByAdGroupId ad_group_id with
      | Json.obj fs =>
        match lookupAL fs "Ad" with
        | some adsJ => do
            let ads ← pyIter adsJ
            pure (acc ++ ads.map (fun a => ("ads", a)))
        | none => some acc
      | _ => none)
    []

/-- `sync_core_objects` from the source.  The returned list is every
record emitted, in order.  A `map` object in Python is truthy even when
empty, so `if campaign_ids` is exactly `isSome` of the modelled ids. -/
def sync_core_objects (client : SyncClient) (account_id : Json)
    (selected_streams : List String) : Option Records := do
  let accountRecs : Records :=
    if selected_streams.contains "accounts" then
      sync_account_stream client account_id
    else []
  let (campaignRecs, campaign_ids) ← sync_campaigns client account_id selected_streams
  match campaign_ids with
  | some ids =>
    if selected_streams.contains "ad_groups" || selected_streams.contains "ads" then do
      let (adGroupRecs, ad_group_ids) ← sync_ad_groups client ids selected_streams
      let adRecs ←
        if selected_streams.contains "ads" then sync_ads client ad_group_ids
        else pure []
      pure (accountRecs ++ campaignRecs ++ adGroupRecs ++ adRecs)
    else pure (accountRecs ++ campaignRecs)
  | none => pure (accountRecs ++ campaignRecs)

/-! ### `fetch_ad_accounts.py` -/

/-- `get_field` from `fetch_ad_accounts.py`: repeatedly `obj.get(field)`,
returning the default as soon as a step yields `None`; `none` models the
`AttributeError` of calling `.get` on a non-dict. -/
def get_field (fields : List String) (obj : Json) (default : Json) : Option Json :=
  match fields with
  | [] => some obj
  | f :: fs =>
    match obj with
    | Json.obj d =>
      match lookupAL d f with
      | none => some default
      | some Json.null => some default
      | some v => get_field fs v default
    | _ => none

/-- The field chain `_request_ad_accounts` extracts. -/
def accountInfoPath : List String :=
  ["s:Envelope", "s:Body", "GetAccountsInfoResponse", "AccountsInfo", "a:AccountInfo"]

/-- `True` exactly on Python lists. -/
def isList : Json → Bool
  | Json.arr _ => true
  | _ => false

/-- The post-decoding logic of `_request_ad_accounts`, applied to the
`xmltodict`-decoded response: extract the `AccountInfo` value with
default `[]` and wrap a bare dict into a one-element list. -/
def request_ad_accounts (response : Json) : Option Json := do
  let v ← get_field accountInfoPath response (Json.arr [])
  match v with
  | Json.obj fs => pure (Json.arr [Json.obj fs])
  | other => pure other

/-- The account-id extraction of `fetch_ad_accounts`:
`[ad_account["a:Id"] for ad_account in ad_accounts]` applied to the
result of `_request_ad_accounts`. -/
def fetch_ad_accounts (response : Json) : Option (List Json) := do
  let ad_accounts ← request_ad_accounts response
  let elems ← pyIter ad_accounts
  elems.mapM (fun a => jSubscript a "a:Id")

/-! ### Concrete instances and claim-level predicates -/

/-- `True` exactly on placeholder strings. -/
def isStrJ : Json → Bool
  | Json.str _ => true
  | _ => false

/-- The inline fragment of a property value (`Json.null` for a
reference; only used where all values are inline). -/
def pvalJ : PVal → Json
  | PVal.inl j => j
  | PVal.ref _ => Json.null

/-- `True` on a present type attribute lying in the built-in XML Schema
namespace. -/
def primNs : Option (String × String) → Bool
  | some (_, ns) => ns == xmlSchemaNs
  | none => false

/-- A child element carrying a built-in XML primitive type: not an
enumeration, not an inline simple type, and typed in the XML Schema
namespace. -/
def isPrimitiveChild (e : Element) : Bool :=
  e.rootName != "enumeration" && e.rootName != "simpleType" && primNs e.typ

/-- The object fragment `wsdl_type_to_schema` builds around a
`properties` map. -/
def objSchema (props : List (String × Json)) : Json :=
  Json.obj [("type", Json.arr [Json.str "object"]),
            ("additionalProperties", Json.bool false),
            ("properties", Json.obj props)]

/-- The scalar fragment of a non-nillable `long` field. -/
def integerSchema : Json := Json.obj [("type", Json.arr [Json.str "integer"])]

/-- The scalar fragment of a non-nillable `string` field. -/
def stringSchema : Json := Json.obj [("type", Json.arr [Json.str "string"])]

/-- A service namespace that passes `get_type_map`'s filter. -/
def svcNs : String := "https://bingads.microsoft.com/CampaignManagement/v11"

/-- A child element that references another named complex type. -/
def refElement (pname target : String) : Element :=
  ⟨pname, false, "element", some (target, svcNs), none, []⟩

/-- A child element of a built-in XML primitive type. -/
def primElement (pname xmlType : String) : Element :=
  ⟨pname, false, "element", some (xmlType, xmlSchemaNs), none, []⟩

/-- A child element carrying an inline enumeration. -/
def enumElement (pname : String) (literals : List String) : Element :=
  ⟨pname, false, "simpleType", some ("string", xmlSchemaNs), none, literals⟩

/-- A complex WSDL type of the service's own namespace. -/
def complexType (tname : String) (children : List Element) : WsdlType :=
  ⟨tname, svcNs, ⟨tname, false, "complexType", none, none, []⟩, children⟩

/-- A three-type reference chain: `A` references `B`, `B` references
`C`, `C` is all-primitive. -/
def chainTypes : List WsdlType :=
  [complexType "A" [refElement "b" "B"],
   complexType "B" [refElement "c" "C"],
   complexType "C" [primElement "v" "long"]]

/-- `C`'s resolved schema. -/
def resolvedC : Json := objSchema [("v", integerSchema)]

/-- `B`'s schema with the reference to `C` resolved. -/
def resolvedB : Json := objSchema [("c", resolvedC)]

/-- `A`'s schema with both hops of the chain resolved. -/
def resolvedA : Json := objSchema [("b", resolvedB)]

/-- The `Account` type of the end-to-end discovery scenario:
`Id:long`, `Name:string`, `Status` an inline enumeration. -/
def accountType : WsdlType :=
  complexType "Account"
    [primElement "Id" "long", primElement "Name" "string",
     enumElement "Status" ["Active", "Paused"]]

/-- A type whose only property references a name outside the filtered
set. -/
def missingRefType (m : String) : WsdlType := complexType "A" [refElement "b" m]

/-- A child element whose non-built-in remote type is `ArrayOflong`:
an `ArrayOf<scalar>` name that is not `ArrayOfstring`. -/
def eArrLong : Element := ⟨"Items", false, "element", some ("ArrayOflong", svcNs), none, []⟩

/-- Claim C2 as stated: for a child with a non-built-in remote type, a
name matching `ArrayOf<scalar>` yields an array fragment whose `items`
is the scalar mapping of the captured scalar; any other name yields the
placeholder string. -/
def arrayPatternClaim : Prop :=
  ∀ (e : Element) (tname ns : String),
    e.rootName ≠ "enumeration" →
    e.typ = some (tname, ns) →
    ns ≠ xmlSchemaNs →
    propOf e =
      match matchArrayOf tname with
      | some sc =>
        some (Json.obj [("type", Json.str "array"),
                        ("items", Json.obj [("type", Json.str (xml_to_json_type sc))])])
      | none => some (Json.str tname)

/-- Integral XML Schema primitive type names, reading the claim's
phrase "long and by extension any other integral remote type". -/
def integralXmlTypes : List String :=
  ["long", "int", "short", "byte", "integer", "negativeInteger",
   "nonNegativeInteger", "nonPositiveInteger", "positiveInteger",
   "unsignedLong", "unsignedInt", "unsignedShort", "unsignedByte"]

/-- Claim C5 as stated, including "by extension any other integral
remote type → integer". -/
def scalarMapperClaim : Prop :=
  xml_to_json_type "boolean" = "boolean" ∧
  (∀ t ∈ ["decimal", "float", "double"], xml_to_json_type t = "number") ∧
  (∀ t ∈ integralXmlTypes, xml_to_json_type t = "integer") ∧
  xml_to_json_type "dateTime" = "string" ∧
  xml_to_json_type "date" = "string" ∧
  (∀ t, t ∉ ["boolean", "decimal", "float", "double"] → t ∉ integralXmlTypes →
    t ≠ "dateTime" → t ≠ "date" → xml_to_json_type t = "string")

/-- Sync scenario: first campaign. -/
def campaign1 : Json := Json.obj [("Id", Json.int 11), ("Name", Json.str "Camp One")]

/-- Sync scenario: second campaign (no ad groups). -/
def campaign2 : Json := Json.obj [("Id", Json.int 12), ("Name", Json.str "Camp Two")]

/-- Sync scenario: the only ad group, under the first campaign. -/
def adGroup1 : Json := Json.obj [("Id", Json.int 21), ("Name", Json.str "Group One")]

/-- Sync scenario: the only ad, under that ad group. -/
def ad1 : Json := Json.obj [("Id", Json.int 31), ("Title", Json.str "Ad One")]

/-- The remote data of the sync scenario: one account with two
campaigns; campaign 11 has one ad group with one ad, campaign 12 has no
ad groups (its response has no `AdGroup` collection).  Note the
`AdGroupId` key the code actually sends is the *list* of ad-group ids of
one campaign. -/
def demoClient : SyncClient where
  getAccount := fun _ => Json.obj [("Id", Json.int 1)]
  getCampaignsByAccountId := fun _ =>
    Json.obj [("Campaign", Json.arr [campaign1, campaign2])]
  getAdGroupsByCampaignId := fun campaign_id =>
    match campaign_id with
    | Json.int (Int.ofNat 11) => Json.obj [("AdGroup", Json.arr [adGroup1])]
    | _ => Json.obj []
  getAdsByAdGroupId := fun ad_group_id =>
    match ad_group_id with
    | Json.arr [Json.int (Int.ofNat 21)] => Json.obj [("Ad", Json.arr [ad1])]
    | _ => Json.obj []

/-- Nest a value under a chain of one-key dicts. -/
def mkNested : List String → Json → Json
  | [], v => v
  | k :: ks, v => Json.obj [(k, mkNested ks v)]

/-- A decoded response whose `AccountInfo` path holds the bare string
`"x"` (what `xmltodict` produces for a pure-text element). -/
def cexAccountsResponse : Json := mkNested accountInfoPath (Json.str "x")

/-- A decoded response whose `AccountInfo` path holds a single account
dict. -/
def demoAccountsResponse : Json :=
  mkNested accountInfoPath (Json.obj [("a:Id", Json.str "123")])

/-- Claim C9's "returns a list" part as stated: every value
`_request_ad_accounts` returns is a Python list. -/
def requestAdAccountsAlwaysList : Prop :=
  ∀ (response v : Json), request_ad_accounts response = some v → isList v = true

/-- Claim C10's description of `get_field` in its own words: the
supplied default as soon as a field in the chain is missing or maps to
`None`, otherwise the value reached at the end of the chain. -/
def get_field_spec : List String → Json → Json → Json
  | [], obj, _ => obj
  | f :: fs, obj, default =>
    match obj with
    | Json.obj d =>
      match lookupAL d f with
      | none => default
      | some Json.null => default
      | some v => get_field_spec fs v default
    | _ => default

/-- Claim C10's hypothesis "chain of nested dicts": every `.get` call
the traversal performs is on a dict. -/
def dictsAlong : List String → Json → Bool
  | [], _ => true
  | f :: fs, Json.obj d =>
    match lookupAL d f with
    | none => true
    | some Json.null => true
    | some v => dictsAlong fs v
  | _ :: _, _ => false

/-- Claim C1 as stated: after `get_type_map` on the three-type chain,
the fragment substituted into `A`'s property for `B` still contains the
placeholder string for `C`. -/
def oneHopClaim : Prop :=
  (get_type_map chainTypes).map
    (fun st => (readEntry st 10 "A").bind
      (fun j => getPath j ["properties", "b", "properties", "c"])) =
    some (some (Json.str "C"))

/-- The per-element property list of a complex type, ignoring the
dict-overwrite of repeated names (equal to `wsdl_props` when names are
distinct, see `wsdl_props_eq_propsOf`). -/
def propsOf : List Element → Option (List (String × Json))
  | [] => some []
  | e :: es => do
    let j ← propOf e
    let ps ← propsOf es
    pure ((e.name, j) :: ps)

/-! ### Shared helper lemmas -/

theorem map_id_of_mem {α : Type} {f : α → α} {l : List α}
    (h : ∀ a ∈ l, f a = a) : l.map f = l := by
  induction l with
  | nil => rfl
  | cons x xs ih =>
    simp only [List.map_cons, h x (List.mem_cons_self x xs)]
    exact congrArg (x :: ·) (ih fun a ha => h a (List.mem_cons_of_mem x ha))

theorem lookupAL_append_of_not_mem {α : Type} {l1 : List (String × α)}
    (l2 : List (String × α)) {k : String} (h : ∀ p ∈ l1, p.1 ≠ k) :
    lookupAL (l1 ++ l2) k = lookupAL l2 k := by
  induction l1 with
  | nil => rfl
  | cons x xs ih =>
    have hx : (x.1 == k) = false :=
      beq_eq_false_iff_ne.mpr (h x (List.mem_cons_self x xs))
    simp only [lookupAL, List.cons_append, List.find?, hx]
    exact ih fun p hp => h p (List.mem_cons_of_mem x hp)

theorem insertAL_of_not_mem {α : Type} {l : List (String × α)} {k : String}
    (v : α) (h : ∀ p ∈ l, p.1 ≠ k) : insertAL l k v = l ++ [(k, v)] := by
  have : l.any (fun p => p.1 == k) = false := by
    rw [List.any_eq_false]
    intro p hp
    simp only [Bool.not_eq_true]
    exact beq_eq_false_iff_ne.mpr (h p hp)
  simp [insertAL, this]

theorem foldlM_insertAL (ch : List Element) (acc : List (String × Json))
    (hfresh : ∀ e ∈ ch, ∀ p ∈ acc, p.1 ≠ e.name)
    (hnodup : (ch.map Element.name).Nodup) :
    ch.foldlM (fun acc e => (propOf e).map fun j => insertAL acc e.name j) acc
      = (propsOf ch).map (fun ps => acc ++ ps) := by
  induction ch generalizing acc with
  | nil => simp [propsOf]
  | cons e es ih =>
    simp only [List.map_cons, List.nodup_cons, List.mem_map] at hnodup
    obtain ⟨hname, hnodup'⟩ := hnodup
    simp only [List.foldlM_cons, propsOf]
    cases hj : propOf e with
    | none => simp
    | some j =>
      have hins : insertAL acc e.name j = acc ++ [(e.name, j)] :=
        insertAL_of_not_mem j (fun p hp => hfresh e (List.mem_cons_self e es) p hp)
      have hfresh' : ∀ e' ∈ es, ∀ p ∈ acc ++ [(e.name, j)], p.1 ≠ e'.name := by
        intro e' he' p hp
        rcases List.mem_append.mp hp with hin | hin
        · exact hfresh e' (List.mem_cons_of_mem e he') p hin
        · rcases List.mem_singleton.mp hin with rfl
          intro hEq
          exact hname ⟨e', he', hEq.symm⟩
      simp only [Option.map_some', Option.bind_eq_bind, Option.some_bind, hins]
      rw [ih (acc ++ [(e.name, j)]) hfresh' hnodup']
      cases propsOf es <;> simp

theorem wsdl_props_eq_propsOf {ch : List Element}
    (hnodup : (ch.map Element.name).Nodup) :
    wsdl_props ch = propsOf ch := by
  rw [wsdl_props, foldlM_insertAL ch [] (by intro e _ p hp; cases hp) hnodup]
  cases propsOf ch <;> simp

theorem primNs_eq : ∀ {t : Option (String × String)}, primNs t = true →
    ∃ tn, t = some (tn, xmlSchemaNs)
  | some (tn, ns), h => ⟨tn, by rw [show ns = xmlSchemaNs by simpa [primNs] using h]⟩
  | none, h => by simp [primNs] at h

theorem propOf_primitive {e : Element} (h : isPrimitiveChild e = true) :
    ∃ fs, propOf e = some (Json.obj fs) := by
  simp only [isPrimitiveChild, Bool.and_eq_true, bne_iff_ne, ne_eq] at h
  obtain ⟨⟨hEnum, hSimple⟩, hTyp⟩ := h
  obtain ⟨tn, htyp⟩ := primNs_eq hTyp
  have hEnum' : (e.rootName == "enumeration") = false :=
    beq_eq_false_iff_ne.mpr hEnum
  have hSimple' : (e.rootName == "simpleType") = false :=
    beq_eq_false_iff_ne.mpr hSimple
  simp [propOf, hEnum', htyp, get_json_schema, hSimple']

theorem propsOf_primitive_children {ch : List Element}
    (h : ∀ e ∈ ch, isPrimitiveChild e = true) :
    ∃ ps, propsOf ch = some ps ∧ ps.map Prod.fst = ch.map Element.name ∧
      ∀ p ∈ ps, ∃ fs, p.2 = Json.obj fs := by
  induction ch with
  | nil => exact ⟨[], rfl, rfl, by intro p hp; cases hp⟩
  | cons e es ih =>
    obtain ⟨ps, hps, hnames, hobj⟩ := ih (fun e' he' => h e' (List.mem_cons_of_mem e he'))
    obtain ⟨fs, hfs⟩ := propOf_primitive (h e (List.mem_cons_self e es))
    refine ⟨(e.name, Json.obj fs) :: ps, ?_, ?_, ?_⟩
    · simp [propsOf, hfs, hps]
    · simp [hnames]
    · intro p hp
      rcases List.mem_cons.mp hp with rfl | hin
      · exact ⟨fs, rfl⟩
      · exact hobj p hin

theorem fill_in_nested_types_no_placeholder (tmap : List (String × Nat))
    {pvs : List (String × PVal)}
    (h : ∀ p ∈ pvs, ∀ s, p.2 ≠ PVal.inl (Json.str s)) :
    fill_in_nested_types tmap pvs = pvs := by
  refine map_id_of_mem ?_
  intro p hp
  rcases p with ⟨k, v⟩
  rcases v with j | a
  · rcases j with - | b | n | s | xs | fields
    · rfl
    · rfl
    · rfl
    · exact absurd rfl (h (k, PVal.inl (Json.str s)) hp s)
    · rfl
    · rfl
  · rfl

theorem read_map_inl (heap : List Cell) (fuel : Nat) (ps : List (String × Json)) :
    (ps.map fun p => (p.1, PVal.inl p.2)).map
      (fun p => (p.1, match p.2 with
                      | PVal.inl j => j
                      | PVal.ref b => readCell heap fuel b)) = ps := by
  rw [List.map_map]
  refine map_id_of_mem ?_
  intro p hp
  simp [Function.comp]

theorem readCell_succ (heap : List Cell) (fuel : Nat) (a : Nat) :
    readCell heap (fuel + 1) a =
      match heap[a]? with
      | some (Cell.simpleCell j) => j
      | some (Cell.objCell props) =>
          Json.obj [("type", Json.arr [Json.str "object"]),
                    ("additionalProperties", Json.bool false),
                    ("properties", Json.obj (props.map fun p =>
                      (p.1, match p.2 with
                            | PVal.inl j => j
                            | PVal.ref b => readCell heap fuel b)))]
      | none => Json.null := rfl

theorem readCell_all_inl {heap : List Cell} {a : Nat} {ps : List (String × Json)}
    (h : heap[a]? = some (Cell.objCell (ps.map fun p => (p.1, PVal.inl p.2))))
    (fuel : Nat) :
    readCell heap (fuel + 1) a = objSchema ps := by
  simp only [readCell, h, read_map_inl]
  rfl

theorem propsOf_append (l1 l2 : List Element) :
    propsOf (l1 ++ l2) = (do
      let a ← propsOf l1
      let b ← propsOf l2
      pure (a ++ b)) := by
  induction l1 with
  | nil => cases h2 : propsOf l2 <;> simp [propsOf, h2]
  | cons e es ih =>
    rw [List.cons_append]
    simp only [propsOf]
    rw [ih]
    cases h1 : propOf e <;> cases h2 : propsOf es <;> cases h3 : propsOf l2 <;>
      simp [h1, h2, h3]

theorem fill_map_inl_obj (tmap : List (String × Nat)) {ps : List (String × Json)}
    (h : ∀ p ∈ ps, ∃ fs, p.2 = Json.obj fs) :
    (ps.map fun p => (p.1, PVal.inl p.2)).map (fill_prop tmap) =
      ps.map fun p => (p.1, PVal.inl p.2) := by
  refine map_id_of_mem ?_
  intro p hp
  obtain ⟨q, hq, rfl⟩ := List.mem_map.mp hp
  obtain ⟨fs, hfs⟩ := h q hq
  simp [fill_prop, hfs]

theorem svcNs_included : type_namespace_included svcNs = true := rfl

theorem pass1Step_complexType (st : TMState) (tname : String) (ch : List Element) :
    pass1Step st (complexType tname ch) =
      (wsdl_type_to_cell (complexType tname ch)).map fun cell =>
        ⟨st.heap ++ [cell], insertAL st.tmap tname st.heap.length⟩ := rfl

theorem wsdl_type_to_cell_complexType (tname : String) (ch : List Element) :
    wsdl_type_to_cell (complexType tname ch) =
      (wsdl_props ch).map fun ps =>
        Cell.objCell (ps.map fun p => (p.1, PVal.inl p.2)) := rfl

theorem wsdl_props_singleton (e : Element) :
    wsdl_props [e] = (propOf e).map fun j => [(e.name, j)] := by
  cases hp : propOf e <;> simp [wsdl_props, hp, insertAL]

theorem propOf_refElement (p t : String) :
    propOf (refElement p t) =
      if containsSubstr "ArrayOfstring" t then get_array_type t
      else some (Json.str t) := rfl

/-! ### Claim theorems -/

/-- C1, counterexample: in the chain `A → B → C` the resolution pass
does *not* leave the placeholder string for `C` inside the fragment
substituted into `A`: because pass 2 substitutes shared references and
mutates every mapped schema dict in place, `A`'s property for `B` ends
up holding `B`'s schema whose property for `C` holds `C`'s resolved
object fragment, refuting the one-hop reading. -/
theorem three_chain_placeholder_not_left : ¬ oneHopClaim := fun h =>
  Json.noConfusion (Option.some.inj (Option.some.inj h))

/-- C4: discovering a service exposing the complex type `Account` with
children `Id : long`, `Name : string` and `Status` an inline enumeration
with literals `Active` and `Paused` yields exactly the claimed object
fragment. -/
theorem account_discovery_fragment :
    (get_type_map [accountType]).map (fun st => readEntry st 10 "Account") =
      some (some (objSchema
        [("Id", integerSchema),
         ("Name", stringSchema),
         ("Status", Json.obj [("type", Json.arr [Json.str "string"]),
                              ("enum", Json.arr [Json.str "Active",
                                                 Json.str "Paused"])])])) := rfl

/-- C8: syncing one account whose remote data holds two campaigns — the
first with one ad group containing one ad, the second with zero ad
groups — emits exactly two `campaigns` records, one `ad_groups` record
and one `ads` record, each parent record before any of its children. -/
theorem sync_emits_parent_before_child :
    sync_core_objects demoClient (Json.int 100) ["campaigns", "ad_groups", "ads"] =
      some [("campaigns", campaign1), ("campaigns", campaign2),
            ("ad_groups", adGroup1), ("ads", ad1)] := rfl

/-- C2, counterexample: the remote type name `ArrayOflong` matches the
`ArrayOf<scalar>` pattern, but the code tests `'ArrayOfstring' in _type`
and therefore stores the placeholder string `"ArrayOflong"` instead of
an array fragment with integer items. -/
theorem arrayOf_scalar_not_always_array : ¬ arrayPatternClaim := fun h =>
  Json.noConfusion (Option.some.inj
    (h eArrLong "ArrayOflong" svcNs (by decide) rfl (by decide)))

/-- C5, counterexample: `int` is an integral remote type, yet
`xml_to_json_type` maps it to `string`, not `integer` — only the literal
name `long` is mapped to `integer`. -/
theorem integral_types_not_all_integer : ¬ scalarMapperClaim := fun h => by
  have h3 := h.2.2.1 "int" (by decide)
  exact absurd h3 (by decide)

/-- C9, counterexample: a decoded response whose `AccountInfo` path
holds the bare string `"x"` (as `xmltodict` yields for a pure-text
element) makes `_request_ad_accounts` return that string — not a list —
and the comprehension in `fetch_ad_accounts` then raises. -/
theorem request_ad_accounts_not_always_list : ¬ requestAdAccountsAlwaysList :=
  fun h => by
    have hx := h cexAccountsResponse (Json.str "x") rfl
    exact absurd hx (by decide)

/-- C5 (amended): `xml_to_json_type` is a pure total function mapping
`boolean` to `boolean`; `decimal`, `float`, `double` to `number`; the
literal name `long` (only) to `integer`; and every other type name —
`dateTime`, `date`, other integral names such as `int`, and anything
unrecognized — to `string`, never raising. -/
theorem xml_to_json_type_table :
    xml_to_json_type "boolean" = "boolean" ∧
    xml_to_json_type "decimal" = "number" ∧
    xml_to_json_type "float" = "number" ∧
    xml_to_json_type "double" = "number" ∧
    xml_to_json_type "long" = "integer" ∧
    xml_to_json_type "dateTime" = "string" ∧
    xml_to_json_type "date" = "string" ∧
    ∀ s, s ∉ ["boolean", "decimal", "float", "double", "long"] →
      xml_to_json_type s = "string" := by
  refine ⟨rfl, rfl, rfl, rfl, rfl, rfl, rfl, ?_⟩
  intro s hs
  simp only [List.mem_cons, List.not_mem_nil, or_false, not_or] at hs
  obtain ⟨h1, h2, h3, h4, h5⟩ := hs
  simp [xml_to_json_type, h1, h2, h3, h4, h5]

theorem xml_to_json_type_table_witness :
    "int" ∉ ["boolean", "decimal", "float", "double", "long"] ∧
    xml_to_json_type "int" = "string" :=
  ⟨by decide, xml_to_json_type_table.2.2.2.2.2.2.2 "int" (by decide)⟩

/-- C6: a nillable element whose built-in primitive remote type is
`dateTime` is inferred as exactly `{type: [null, string],
format: "date-time"}` — the `null` entry prepended before `string` and
the `date-time` format attached. -/
theorem nillable_dateTime_schema (e : Element)
    (h1 : e.nillable = true) (h2 : e.rootName ≠ "simpleType")
    (h3 : e.typ = some ("dateTime", xmlSchemaNs)) :
    get_json_schema e =
      some (Json.obj [("type", Json.arr [Json.str "null", Json.str "string"]),
                      ("format", Json.str "date-time")]) := by
  have h2' : (e.rootName == "simpleType") = false := beq_eq_false_iff_ne.mpr h2
  simp [get_json_schema, h1, h2', h3, xml_to_json_type]

theorem nillable_dateTime_schema_witness :
    get_json_schema ⟨"Modified", true, "element",
        some ("dateTime", xmlSchemaNs), none, []⟩ =
      some (Json.obj [("type", Json.arr [Json.str "null", Json.str "string"]),
                      ("format", Json.str "date-time")]) :=
  nillable_dateTime_schema _ rfl (by decide) rfl

/-- C10: over every chain of nested dicts, `get_field` never raises: it
returns the supplied default as soon as a field in the chain is missing
or maps to `None`, and otherwise the value reached at the end of the
chain (the behavior described by `get_field_spec`). -/
theorem get_field_nested_dicts (fields : List String) (obj default : Json)
    (h : dictsAlong fields obj = true) :
    get_field fields obj default = some (get_field_spec fields obj default) := by
  induction fields generalizing obj with
  | nil => rfl
  | cons f fs ih =>
    cases obj with
    | obj d =>
      simp only [dictsAlong] at h
      revert h
      cases hv : lookupAL d f with
      | none => intro h; simp [get_field, get_field_spec, hv]
      | some v =>
        intro h
        cases v <;> simp only [get_field, get_field_spec, hv] <;> exact ih _ h
    | null => simp [dictsAlong] at h
    | bool b => simp [dictsAlong] at h
    | int n => simp [dictsAlong] at h
    | str s => simp [dictsAlong] at h
    | arr xs => simp [dictsAlong] at h

theorem get_field_nested_dicts_witness :
    get_field ["s:Envelope", "s:Body"]
        (Json.obj [("s:Envelope", Json.obj [("s:Body", Json.int 5)])])
        (Json.arr []) = some (Json.int 5) :=
  (get_field_nested_dicts ["s:Envelope", "s:Body"]
    (Json.obj [("s:Envelope", Json.obj [("s:Body", Json.int 5)])])
    (Json.arr []) rfl).trans rfl

/-- C2 (amended): for a child element whose remote type lies in a
non-built-in namespace, the code produces an array fragment exactly when
the substring `ArrayOfstring` occurs in the remote type name (the items
type then comes from the regex match on that name); every other such
name — including other `ArrayOf<scalar>` names like `ArrayOflong` —
becomes the placeholder string, and a complex type with that sole child
carries the resulting value as its property. -/
theorem arrayOfstring_dispatch (e : Element) (tname ns : String)
    (h1 : e.rootName ≠ "enumeration")
    (h2 : e.typ = some (tname, ns))
    (h3 : ns ≠ xmlSchemaNs) :
    propOf e = (if containsSubstr "ArrayOfstring" tname then get_array_type tname
                else some (Json.str tname)) ∧
    ∀ t : WsdlType, t.asElement.rootName ≠ "simpleType" → t.children = [e] →
      wsdl_type_to_schema t = (propOf e).map fun j =>
        Json.obj [("type", Json.arr [Json.str "object"]),
                  ("additionalProperties", Json.bool false),
                  ("properties", Json.obj [(e.name, j)])] := by
  have h1' : (e.rootName == "enumeration") = false := beq_eq_false_iff_ne.mpr h1
  have h3' : (ns != xmlSchemaNs) = true := by
    simp [bne_iff_ne, h3]
  constructor
  · simp [propOf, h1', h2, h3']
  · intro t ht hch
    have ht' : (t.asElement.rootName == "simpleType") = false :=
      beq_eq_false_iff_ne.mpr ht
    rw [wsdl_type_to_schema, if_neg (by simp [ht']), hch, wsdl_props_singleton]
    cases propOf e <;> simp

theorem arrayOfstring_dispatch_witness :
    propOf ⟨"Items2", false, "element", some ("ArrayOfstring", svcNs), none, []⟩ =
      some (Json.obj [("type", Json.str "array"),
                      ("items", Json.obj [("type", Json.str "string")])]) :=
  ((arrayOfstring_dispatch
    ⟨"Items2", false, "element", some ("ArrayOfstring", svcNs), none, []⟩
    "ArrayOfstring" svcNs (by decide) rfl (by decide)).1).trans rfl

/-- C9 (amended): `_request_ad_accounts` wraps a dict found at the
`AccountInfo` path into a one-element list, yields the default empty
list when the path is absent, passes a list through unchanged — and
passes any *other* extracted value (e.g. a bare string) through as-is,
so the result is not always a list; `fetch_ad_accounts` returns the
list of `a:Id` values whenever every element of that result is a dict
containing `a:Id`. -/
theorem request_ad_accounts_shapes (response v : Json)
    (h : get_field accountInfoPath response (Json.arr []) = some v) :
    request_ad_accounts response =
      some (match v with
            | Json.obj fs => Json.arr [Json.obj fs]
            | other => other) ∧
    ∀ accounts ids, request_ad_accounts response = some (Json.arr accounts) →
      accounts.mapM (fun a => jSubscript a "a:Id") = some ids →
      fetch_ad_accounts response = some ids := by
  constructor
  · cases v <;> simp [request_ad_accounts, h]
  · intro accounts ids hreq hmap
    simp only [fetch_ad_accounts, hreq, Option.bind_eq_bind, Option.some_bind, pyIter]
    exact hmap

theorem request_ad_accounts_shapes_witness :
    request_ad_accounts demoAccountsResponse =
      some (Json.arr [Json.obj [("a:Id", Json.str "123")]]) ∧
    fetch_ad_accounts demoAccountsResponse = some [Json.str "123"] :=
  ⟨((request_ad_accounts_shapes demoAccountsResponse
      (Json.obj [("a:Id", Json.str "123")]) rfl).1).trans rfl,
   (request_ad_accounts_shapes demoAccountsResponse
      (Json.obj [("a:Id", Json.str "123")]) rfl).2
     [Json.obj [("a:Id", Json.str "123")]] [Json.str "123"]
     (((request_ad_accounts_shapes demoAccountsResponse
      (Json.obj [("a:Id", Json.str "123")]) rfl).1).trans rfl) rfl⟩

/-- C3: a placeholder reference naming a type absent from the map is
left as the bare string by the resolution pass (and one present in the
map is rebound to that entry), and `get_type_map` on a service whose
only type holds such an absent reference completes without raising,
with the bare string still in the output schema. -/
theorem absent_reference_left_in_place (m : String)
    (hm1 : containsSubstr "ArrayOfstring" m = false)
    (hm2 : m ≠ "A") :
    (∀ (tmap : List (String × Nat)) (k s : String),
        lookupAL tmap s = none →
        fill_prop tmap (k, PVal.inl (Json.str s)) = (k, PVal.inl (Json.str s))) ∧
    (∀ (tmap : List (String × Nat)) (k s : String) (a : Nat),
        lookupAL tmap s = some a →
        fill_prop tmap (k, PVal.inl (Json.str s)) = (k, PVal.ref a)) ∧
    (get_type_map [missingRefType m]).map (fun st => readEntry st 10 "A") =
      some (some (objSchema [("b", Json.str m)])) := by
  have hAm : ("A" == m) = false := beq_eq_false_iff_ne.mpr (Ne.symm hm2)
  refine ⟨?_, ?_, ?_⟩
  · intro tmap k s hnone
    simp [fill_prop, hnone]
  · intro tmap k s a hsome
    simp [fill_prop, hsome]
  · have h1 : wsdl_props [refElement "b" m] = some [("b", Json.str m)] := by
      rw [wsdl_props_singleton, propOf_refElement, if_neg (by with_reducible simp [hm1])]
      simp [refElement]
    have h2 : build_pass1 [missingRefType m] =
        some ⟨[Cell.objCell [("b", PVal.inl (Json.str m))]], [("A", 0)]⟩ := by
      simp [build_pass1, missingRefType, pass1Step_complexType,
        wsdl_type_to_cell_complexType, h1, insertAL, TMState.mk.injEq]
    rw [get_type_map, h2]
    simp [build_pass2, pass2Step, fill_in_nested_types, fill_prop, lookupAL,
      List.find?, hAm, readEntry, readCell, objSchema]

/-- C1 (amended): in every three-type chain `A → B → C` (distinct type
names, reference names free of the `ArrayOfstring` marker), the
resolution pass substitutes shared references and mutates each mapped
schema dict in place, so the observable result resolves *both* hops:
`A`'s property for `B` holds `B`'s schema whose property for `C` holds
`C`'s fully resolved object fragment — not a placeholder. -/
theorem three_chain_fully_resolved (nA nB nC : String)
    (hAB : (nA == nB) = false) (hAC : (nA == nC) = false)
    (hBC : (nB == nC) = false)
    (hB : containsSubstr "ArrayOfstring" nB = false)
    (hC : containsSubstr "ArrayOfstring" nC = false) :
    (get_type_map [complexType nA [refElement "b" nB],
                   complexType nB [refElement "c" nC],
                   complexType nC [primElement "v" "long"]]).map
      (fun st => readEntry st 10 nA) = some (some resolvedA) := by
  have hpB : propOf (refElement "b" nB) = some (Json.str nB) := by
    rw [propOf_refElement, if_neg (by with_reducible simp [hB])]
  have hpC : propOf (refElement "c" nC) = some (Json.str nC) := by
    rw [propOf_refElement, if_neg (by with_reducible simp [hC])]
  have hwA : wsdl_props [refElement "b" nB] = some [("b", Json.str nB)] := by
    rw [wsdl_props_singleton, hpB]; simp [refElement]
  have hwB : wsdl_props [refElement "c" nC] = some [("c", Json.str nC)] := by
    rw [wsdl_props_singleton, hpC]; simp [refElement]
  have hwC : wsdl_props [primElement "v" "long"] = some [("v", integerSchema)] := rfl
  have hp1 : build_pass1 [complexType nA [refElement "b" nB],
      complexType nB [refElement "c" nC],
      complexType nC [primElement "v" "long"]] =
      some ⟨[Cell.objCell [("b", PVal.inl (Json.str nB))],
             Cell.objCell [("c", PVal.inl (Json.str nC))],
             Cell.objCell [("v", PVal.inl integerSchema)]],
            [(nA, 0), (nB, 1), (nC, 2)]⟩ := by
    simp [build_pass1, pass1Step_complexType, wsdl_type_to_cell_complexType,
      hwA, hwB, hwC, insertAL, hAB, hAC, hBC]
  have hlookB : lookupAL [(nA, 0), (nB, 1), (nC, 2)] nB = some 1 := by
    simp [lookupAL, List.find?, hAB]
  have hlookC : lookupAL [(nA, 0), (nB, 1), (nC, 2)] nC = some 2 := by
    simp [lookupAL, List.find?, hAC, hBC]
  have hlookA : lookupAL [(nA, 0), (nB, 1), (nC, 2)] nA = some 0 := by
    simp [lookupAL, List.find?]
  have hfillA : fill_in_nested_types [(nA, 0), (nB, 1), (nC, 2)]
      [("b", PVal.inl (Json.str nB))] = [("b", PVal.ref 1)] := by
    simp [fill_in_nested_types, fill_prop, hlookB]
  have hfillB : fill_in_nested_types [(nA, 0), (nB, 1), (nC, 2)]
      [("c", PVal.inl (Json.str nC))] = [("c", PVal.ref 2)] := by
    simp [fill_in_nested_types, fill_prop, hlookC]
  have hfillC : fill_in_nested_types [(nA, 0), (nB, 1), (nC, 2)]
      [("v", PVal.inl integerSchema)] = [("v", PVal.inl integerSchema)] := by
    simp [fill_in_nested_types, fill_prop, integerSchema]
  have hp2 : build_pass2 ⟨[Cell.objCell [("b", PVal.inl (Json.str nB))],
             Cell.objCell [("c", PVal.inl (Json.str nC))],
             Cell.objCell [("v", PVal.inl integerSchema)]],
            [(nA, 0), (nB, 1), (nC, 2)]⟩ =
      ⟨[Cell.objCell [("b", PVal.ref 1)],
        Cell.objCell [("c", PVal.ref 2)],
        Cell.objCell [("v", PVal.inl integerSchema)]],
       [(nA, 0), (nB, 1), (nC, 2)]⟩ := by
    simp [build_pass2, pass2Step, hfillA, hfillB, hfillC, List.set]
  rw [get_type_map, hp1, Option.map_some', hp2]
  simp only [Option.map_some', readEntry, hlookA]
  rfl

theorem three_chain_fully_resolved_witness :
    (get_type_map [complexType "A" [refElement "b" "B"],
                   complexType "B" [refElement "c" "C"],
                   complexType "C" [primElement "v" "long"]]).map
      (fun st => readEntry st 10 "A") = some (some resolvedA) :=
  three_chain_fully_resolved "A" "B" "C" rfl rfl rfl rfl rfl

theorem absent_reference_left_in_place_witness :
    (get_type_map [missingRefType "Missing"]).map
      (fun st => readEntry st 10 "A") =
      some (some (objSchema [("b", Json.str "Missing")])) :=
  (absent_reference_left_in_place "Missing" rfl (by decide)).2.2

/-- C7: for a service with exactly two types — `A`, whose only
non-primitive property references `B` by name (any other properties
primitive, child names distinct), and `B`, all of whose properties are
primitive — `build_type_map` resolves `A`'s reference to `B`'s full
object fragment, and `B`'s schema after pass 2 equals its schema after
pass 1: the resolution pass is idempotent when no unresolved references
exist. -/
theorem two_type_resolution_idempotent
    (aPre aPost bChildren : List Element)
    (hpre : ∀ e ∈ aPre, isPrimitiveChild e = true)
    (hpost : ∀ e ∈ aPost, isPrimitiveChild e = true)
    (hb : ∀ e ∈ bChildren, isPrimitiveChild e = true)
    (hAnodup : ((aPre ++ refElement "b" "B" :: aPost).map Element.name).Nodup)
    (hBnodup : (bChildren.map Element.name).Nodup) :
    ∃ st1, build_pass1 [complexType "A" (aPre ++ refElement "b" "B" :: aPost),
                        complexType "B" bChildren] = some st1 ∧
      get_type_map [complexType "A" (aPre ++ refElement "b" "B" :: aPost),
                    complexType "B" bChildren] = some (build_pass2 st1) ∧
      (readEntry (build_pass2 st1) 10 "A").bind
        (fun j => getPath j ["properties", "b"]) =
        readEntry (build_pass2 st1) 10 "B" ∧
      readEntry (build_pass2 st1) 10 "B" = readEntry st1 10 "B" := by
  obtain ⟨psPre, hpsPre, hnamesPre, hobjPre⟩ := propsOf_primitive_children hpre
  obtain ⟨psPost, hpsPost, hnamesPost, hobjPost⟩ := propsOf_primitive_children hpost
  obtain ⟨psB, hpsB, hnamesB, hobjB⟩ := propsOf_primitive_children hb
  have hpB : propOf (refElement "b" "B") = some (Json.str "B") := rfl
  have hconsA : propsOf (refElement "b" "B" :: aPost) =
      some (("b", Json.str "B") :: psPost) := by
    simp only [propsOf, hpB, hpsPost, Option.bind_eq_bind, Option.some_bind]
    rfl
  have hpsA : propsOf (aPre ++ refElement "b" "B" :: aPost) =
      some (psPre ++ ("b", Json.str "B") :: psPost) := by
    rw [propsOf_append, hpsPre, hconsA]
    rfl
  have hwA : wsdl_props (aPre ++ refElement "b" "B" :: aPost) =
      some (psPre ++ ("b", Json.str "B") :: psPost) := by
    rw [wsdl_props_eq_propsOf hAnodup, hpsA]
  have hwB : wsdl_props bChildren = some psB := by
    rw [wsdl_props_eq_propsOf hBnodup, hpsB]
  have hp1 : build_pass1 [complexType "A" (aPre ++ refElement "b" "B" :: aPost),
      complexType "B" bChildren] =
      some ⟨[Cell.objCell ((psPre ++ ("b", Json.str "B") :: psPost).map
               fun p => (p.1, PVal.inl p.2)),
             Cell.objCell (psB.map fun p => (p.1, PVal.inl p.2))],
            [("A", 0), ("B", 1)]⟩ := by
    simp [build_pass1, pass1Step_complexType, wsdl_type_to_cell_complexType,
      hwA, hwB, insertAL]
  have hfill1 : fill_in_nested_types [("A", 0), ("B", 1)]
      ((psPre.map fun p => (p.1, PVal.inl p.2)) ++
        ("b", PVal.inl (Json.str "B")) :: (psPost.map fun p => (p.1, PVal.inl p.2))) =
      (psPre.map fun p => (p.1, PVal.inl p.2)) ++
        ("b", PVal.ref 1) :: (psPost.map fun p => (p.1, PVal.inl p.2)) := by
    have hbfill : fill_prop [("A", 0), ("B", 1)] ("b", PVal.inl (Json.str "B")) =
        ("b", PVal.ref 1) := rfl
    simp only [fill_in_nested_types, List.map_append, List.map_cons,
      fill_map_inl_obj _ hobjPre, fill_map_inl_obj _ hobjPost, hbfill]
  have hfill2 : fill_in_nested_types [("A", 0), ("B", 1)]
      (psB.map fun p => (p.1, PVal.inl p.2)) =
      psB.map fun p => (p.1, PVal.inl p.2) :=
    fill_map_inl_obj _ hobjB
  have hp2 : build_pass2 ⟨[Cell.objCell ((psPre ++ ("b", Json.str "B") :: psPost).map
               fun p => (p.1, PVal.inl p.2)),
             Cell.objCell (psB.map fun p => (p.1, PVal.inl p.2))],
            [("A", 0), ("B", 1)]⟩ =
      ⟨[Cell.objCell ((psPre.map fun p => (p.1, PVal.inl p.2)) ++
          ("b", PVal.ref 1) :: (psPost.map fun p => (p.1, PVal.inl p.2))),
        Cell.objCell (psB.map fun p => (p.1, PVal.inl p.2))],
       [("A", 0), ("B", 1)]⟩ := by
    simp [build_pass2, pass2Step, hfill1, hfill2, List.set]
  refine ⟨_, hp1, ?_, ?_, ?_⟩
  · rw [get_type_map, hp1]
    rfl
  · rw [hp2]
    have hbNotPre : ∀ p ∈ psPre, p.1 ≠ "b" := by
      intro p hp hEq
      have hmem : p.1 ∈ aPre.map Element.name := by
        rw [← hnamesPre]
        exact List.mem_map_of_mem Prod.fst hp
      have hnd := hAnodup
      rw [List.map_append, List.map_cons] at hnd
      have hdisj := List.disjoint_of_nodup_append hnd
      exact hdisj (hEq ▸ hmem) (by simp [refElement])
    have hb9 : readCell [Cell.objCell ((psPre.map fun p => (p.1, PVal.inl p.2)) ++
          ("b", PVal.ref 1) :: (psPost.map fun p => (p.1, PVal.inl p.2))),
        Cell.objCell (psB.map fun p => (p.1, PVal.inl p.2))] 9 1 = objSchema psB :=
      readCell_all_inl rfl 8
    have hb10 : readCell [Cell.objCell ((psPre.map fun p => (p.1, PVal.inl p.2)) ++
          ("b", PVal.ref 1) :: (psPost.map fun p => (p.1, PVal.inl p.2))),
        Cell.objCell (psB.map fun p => (p.1, PVal.inl p.2))] 10 1 = objSchema psB :=
      readCell_all_inl rfl 9
    have hreadA : readCell [Cell.objCell ((psPre.map fun p => (p.1, PVal.inl p.2)) ++
          ("b", PVal.ref 1) :: (psPost.map fun p => (p.1, PVal.inl p.2))),
        Cell.objCell (psB.map fun p => (p.1, PVal.inl p.2))] 10 0 =
        Json.obj [("type", Json.arr [Json.str "object"]),
                  ("additionalProperties", Json.bool false),
                  ("properties", Json.obj (psPre ++ ("b", objSchema psB) :: psPost))] := by
      rw [show (10 : Nat) = 9 + 1 from rfl, readCell_succ]
      simp only [List.getElem?_cons_zero, List.map_append, List.map_cons,
        read_map_inl, hb9]
    have hEA : readEntry ⟨[Cell.objCell ((psPre.map fun p => (p.1, PVal.inl p.2)) ++
          ("b", PVal.ref 1) :: (psPost.map fun p => (p.1, PVal.inl p.2))),
        Cell.objCell (psB.map fun p => (p.1, PVal.inl p.2))],
       [("A", 0), ("B", 1)]⟩ 10 "A" =
        some (readCell [Cell.objCell ((psPre.map fun p => (p.1, PVal.inl p.2)) ++
          ("b", PVal.ref 1) :: (psPost.map fun p => (p.1, PVal.inl p.2))),
        Cell.objCell (psB.map fun p => (p.1, PVal.inl p.2))] 10 0) := rfl
    have hEB : readEntry ⟨[Cell.objCell ((psPre.map fun p => (p.1, PVal.inl p.2)) ++
          ("b", PVal.ref 1) :: (psPost.map fun p => (p.1, PVal.inl p.2))),
        Cell.objCell (psB.map fun p => (p.1, PVal.inl p.2))],
       [("A", 0), ("B", 1)]⟩ 10 "B" =
        some (readCell [Cell.objCell ((psPre.map fun p => (p.1, PVal.inl p.2)) ++
          ("b", PVal.ref 1) :: (psPost.map fun p => (p.1, PVal.inl p.2))),
        Cell.objCell (psB.map fun p => (p.1, PVal.inl p.2))] 10 1) := rfl
    rw [hEA, hEB, hreadA, hb10]
    have hlook_b : lookupAL (psPre ++ ("b", objSchema psB) :: psPost) "b" =
        some (objSchema psB) := by
      rw [lookupAL_append_of_not_mem _ hbNotPre]
      simp [lookupAL, List.find?]
    simp only [Option.some_bind, getPath, hlook_b]
    rw [show lookupAL [("type", Json.arr [Json.str "object"]),
        ("additionalProperties", Json.bool false),
        ("properties", Json.obj (psPre ++ ("b", objSchema psB) :: psPost))]
        "properties" = some (Json.obj (psPre ++ ("b", objSchema psB) :: psPost))
      from rfl]
    simp only [getPath, hlook_b]
    rfl
  · rw [hp2]
    have hb10 : readCell [Cell.objCell ((psPre.map fun p => (p.1, PVal.inl p.2)) ++
          ("b", PVal.ref 1) :: (psPost.map fun p => (p.1, PVal.inl p.2))),
        Cell.objCell (psB.map fun p => (p.1, PVal.inl p.2))] 10 1 = objSchema psB :=
      readCell_all_inl rfl 9
    have hb10' : readCell [Cell.objCell ((psPre ++ ("b", Json.str "B") :: psPost).map
               fun p => (p.1, PVal.inl p.2)),
        Cell.objCell (psB.map fun p => (p.1, PVal.inl p.2))] 10 1 = objSchema psB :=
      readCell_all_inl rfl 9
    have hEB : readEntry ⟨[Cell.objCell ((psPre.map fun p => (p.1, PVal.inl p.2)) ++
          ("b", PVal.ref 1) :: (psPost.map fun p => (p.1, PVal.inl p.2))),
        Cell.objCell (psB.map fun p => (p.1, PVal.inl p.2))],
       [("A", 0), ("B", 1)]⟩ 10 "B" =
        some (readCell [Cell.objCell ((psPre.map fun p => (p.1, PVal.inl p.2)) ++
          ("b", PVal.ref 1) :: (psPost.map fun p => (p.1, PVal.inl p.2))),
        Cell.objCell (psB.map fun p => (p.1, PVal.inl p.2))] 10 1) := rfl
    have hEB' : readEntry ⟨[Cell.objCell ((psPre ++ ("b", Json.str "B") :: psPost).map
               fun p => (p.1, PVal.inl p.2)),
        Cell.objCell (psB.map fun p => (p.1, PVal.inl p.2))],
       [("A", 0), ("B", 1)]⟩ 10 "B" =
        some (readCell [Cell.objCell ((psPre ++ ("b", Json.str "B") :: psPost).map
               fun p => (p.1, PVal.inl p.2)),
        Cell.objCell (psB.map fun p => (p.1, PVal.inl p.2))] 10 1) := rfl
    rw [hEB, hEB', hb10, hb10']


theorem two_type_resolution_idempotent_witness :
    ∃ st1, build_pass1 [complexType "A"
          ([primElement "n" "string"] ++ refElement "b" "B" :: []),
        complexType "B" [primElement "x" "long"]] = some st1 ∧
      get_type_map [complexType "A"
          ([primElement "n" "string"] ++ refElement "b" "B" :: []),
        complexType "B" [primElement "x" "long"]] = some (build_pass2 st1) ∧
      (readEntry (build_pass2 st1) 10 "A").bind
        (fun j => getPath j ["properties", "b"]) =
        readEntry (build_pass2 st1) 10 "B" ∧
      readEntry (build_pass2 st1) 10 "B" = readEntry st1 10 "B" :=
  two_type_resolution_idempotent [primElement "n" "string"] []
    [primElement "x" "long"] (by decide) (by decide) (by decide)
    (by decide) (by decide)

end TapBingAds
